import Mathlib

/-!
Shallow embedding of `src/PerformanceArena.ts`.

The TypeScript class `PerformanceArena` is an in-process timing recorder.
We model its state as the structure `Arena` below and each public or
private method as a Lean function on `Arena`.

Modelling choices, each justified by the source:

* Timestamps are `Int`.  The only numeric operations in the source are
  subtraction (`perfNow - currentRefTime`), equality-with-zero via JS
  falsiness (`if (!currentRefTime)`), and the length comparison
  `recentCycles.length >= this.inMemCycles`; all are faithfully
  represented over `Int`/`Nat`.
* The source keeps the execution kind of a stage in the separate map
  `this.cache` and stores `currentRefTime` untyped
  (`number | Array<number>`), casting according to the cached kind.
  `initializePerformanceData` is the only writer and always creates the
  cache entry and the storage shape together (`async` with `[]`,
  `sync` with `0`), and every reader branches on the cache before
  casting, so the pair is exactly a tagged variant: `RefStore` below.
* The clock (`nowFn`, i.e. `performance.now`) is passed to each
  operation as an explicit `now : Int` argument.
* The purge callback `onPurgeCallback` is observable only through the
  calls made to it; we record those calls in `Arena.purgeLog`.  The
  snapshot argument `JSON.parse(JSON.stringify(this.records[name]))` is
  a structural deep copy of the record, i.e. the record's value, which
  is what gets appended to the log.  `hasOnPurge` models whether a
  callback was supplied (`this.onPurgeCallback?.()` is a no-op when it
  was not).
* `this.records` (a JS object keyed by stage name) is an association
  list `List (String × StagePerfData)` with `lookupRec`/`setRec`.
* The `window` wiring (`window.performanceArena`,
  `listenForEventsPerformanceData`) only exposes existing state or
  invokes `initializePerformanceData(this.stages, true)` /
  sets `skipRecording`; the two listeners are modelled as the functions
  `resetArena` and `setSkipRecording`.
* A JS `throw` in `initializePerformanceData` is `Except.error`.
-/

/-- Source type `StageExecutionType`: the two execution kinds, `sync` and `async`. -/
inductive StageExecutionType where
  | sync
  | async
deriving DecidableEq

/-- The per-stage pending reference storage:
`currentRefTime: number | Array<number>` tagged by `this.cache[name]`
(see the header comment). `sync v` is the scalar slot, `async q` the
FIFO array of outstanding start timestamps. -/
inductive RefStore where
  | sync (v : Int)
  | async (q : List Int)
deriving DecidableEq

/-- One element of `recentCycles`: `{ r: refTime, t: totalTime }`. -/
structure PerfCycle where
  r : Int
  t : Int
deriving DecidableEq

/-- Source type `StagePerfData`: currentRefTime, totalCycles, recentCycles. -/
structure StagePerfData where
  currentRefTime : RefStore
  totalCycles : Nat
  recentCycles : List PerfCycle
deriving DecidableEq

/-- Source type `StageExtenedType`: a name plus an optional kind. -/
structure StageExtended where
  name : String
  type : Option StageExecutionType
deriving DecidableEq

/-- Source type `Stage`: either a bare name or an extended descriptor. -/
inductive Stage where
  | str (s : String)
  | ext (e : StageExtended)
deriving DecidableEq

/-- The fields of the `PerformanceArena` class, plus `purgeLog`, the
sequence of `(name, snapshot)` calls made to `onPurgeCallback` so far
(the callback's observable behaviour). -/
structure Arena where
  stages : List Stage
  records : List (String × StagePerfData)
  skipRecording : Bool
  enableLiveDebug : Bool
  inMemCycles : Nat
  hasOnPurge : Bool
  purgeLog : List (String × StagePerfData)
deriving DecidableEq

/-- JS object property read `this.records[name]` (`undefined` = `none`). -/
def lookupRec : List (String × StagePerfData) → String → Option StagePerfData
  | [], _ => none
  | p :: rest, n => if p.1 = n then some p.2 else lookupRec rest n

/-- JS object property write `this.records[name] = d` (overwrite when the
key exists, insert otherwise). -/
def setRec (recs : List (String × StagePerfData)) (n : String)
    (d : StagePerfData) : List (String × StagePerfData) :=
  match lookupRec recs n with
  | some _ => recs.map (fun p => if p.1 = n then (n, d) else p)
  | none => recs ++ [(n, d)]

/-- Source normalization of a `Stage`: a bare string becomes a record with
kind `sync`, and a missing kind defaults to `sync`
(`s.type = s.type || ...` in the source). -/
def normalizeStage : Stage → StageExtended
  | Stage.str s => { name := s, type := some StageExecutionType.sync }
  | Stage.ext e => { name := e.name, type := some (e.type.getD StageExecutionType.sync) }

/-- The fresh `stageRecord` built in `initializePerformanceData`:
an empty async queue or the sync slot at `0`, a zero counter, and an
empty history. -/
def initRecord (kind : StageExecutionType) : StagePerfData :=
  { currentRefTime :=
      match kind with
      | StageExecutionType.async => RefStore.async []
      | StageExecutionType.sync => RefStore.sync 0,
    totalCycles := 0,
    recentCycles := [] }

/-- Source method `initializePerformanceData(stages, forceInitialize?)`: `forEach` over
the given list (throwing aborts the iteration), registering each stage.
The source appends each normalized stage to `this.stages` and overwrites
`this.records[s.name]` and `this.cache[s.name]`; it never clears either
container. -/
def initPerformanceData (a : Arena) (stages : List Stage)
    (forceInit : Bool) : Except String Arena :=
  stages.foldlM (fun acc stage =>
    let s := normalizeStage stage
    if (lookupRec acc.records s.name).isSome && !forceInit then
      Except.error ("Found duplicate performance stage " ++ s.name ++ ". Aborting...")
    else
      Except.ok { acc with
        stages := acc.stages ++ [Stage.ext s],
        records := setRec acc.records s.name
          (initRecord (s.type.getD StageExecutionType.sync)) }) a

/-- The `PerformanceArena` constructor.  `inMemCyclesArg = none` models an
omitted `inMemCycles` argument; `inMemCycles || 250` maps `0`/`undefined`
to `250`; in non-live mode the capacity is `1`. -/
def mkArena (stages : List Stage) (skipRecording : Bool)
    (inMemCyclesArg : Option Nat) (enableLiveDebug : Bool)
    (hasOnPurge : Bool) : Except String Arena :=
  let cap : Nat :=
    if enableLiveDebug then
      match inMemCyclesArg with
      | some n => if n = 0 then 250 else n
      | none => 250
    else 1
  initPerformanceData
    { stages := [], records := [], skipRecording := skipRecording,
      enableLiveDebug := enableLiveDebug, inMemCycles := cap,
      hasOnPurge := hasOnPurge, purgeLog := [] }
    stages false

/-- Source method `startStage(name)`. -/
def startStage (a : Arena) (name : String) (now : Int) : Arena :=
  if a.skipRecording then a
  else
    match lookupRec a.records name with
    | none => a
    | some record =>
      match record.currentRefTime with
      | RefStore.sync _ =>
        let record2 := { record with currentRefTime := RefStore.sync now }
        { a with records := setRec a.records name record2 }
      | RefStore.async q =>
        let record2 := { record with currentRefTime := RefStore.async (q ++ [now]) }
        { a with records := setRec a.records name record2 }

/-- Source method `markTime(name, refTime, totalTime)`, expressed on the record the
source reaches through `this.records[name]`. -/
def markTime (record : StagePerfData) (refTime totalTime : Int) : StagePerfData :=
  { record with
    recentCycles := record.recentCycles ++ [{ r := refTime, t := totalTime }],
    totalCycles := record.totalCycles + 1 }

/-- Source method `purgeArena(name)`: invoke the callback (when present) with a deep
copy of the record, then set `recentCycles = []`.  The source reads
`this.records[name]` unguarded; `purgeArena` is only called from
`endStage` right after `this.records[name]` was found present, so the
`none` branch is unreachable there. -/
def purgeArena (a : Arena) (name : String) : Arena :=
  match lookupRec a.records name with
  | none => a
  | some record =>
    { a with
      purgeLog := if a.hasOnPurge then a.purgeLog ++ [(name, record)] else a.purgeLog,
      records := setRec a.records name ({ record with recentCycles := [] }) }

/-- The value the `let currentRefTime` chain in `endStage` produces:
`event.timeStamp` when an event is supplied, otherwise the sync slot, or
`Array.prototype.shift()` of the async queue (`none` = `undefined` on an
empty queue). -/
def refOf : Option Int → RefStore → Option Int
  | some ts, _ => some ts
  | none, RefStore.sync v => some v
  | none, RefStore.async [] => none
  | none, RefStore.async (h :: _) => some h

/-- The pending store after that chain ran: `shift()` mutates the async
queue in place (even when the shifted value later fails the falsiness
check); the sync slot and, with an event supplied, everything, is left
as-is at this point. -/
def storeAfterShift : Option Int → RefStore → RefStore
  | some _, st => st
  | none, RefStore.sync v => RefStore.sync v
  | none, RefStore.async [] => RefStore.async []
  | none, RefStore.async (_ :: t) => RefStore.async t

/-- The test `this.cache[name] === ...sync` of the source, read off the tagged store. -/
def isSyncStore : RefStore → Bool
  | RefStore.sync _ => true
  | RefStore.async _ => false

/-- The body of `endStage` once the `!skipRecording && records[name]`
guard has passed, with `record = this.records[name]`. -/
def endStageHit (a : Arena) (name : String) (event : Option Int)
    (now : Int) (record : StagePerfData) : Arena :=
  let st := storeAfterShift event record.currentRefTime
  match refOf event record.currentRefTime with
  | none =>
    -- `if (!currentRefTime) return` with `currentRefTime === undefined`
    { a with records := setRec a.records name ({ record with currentRefTime := st }) }
  | some rt =>
    if rt = 0 then
      -- `if (!currentRefTime) return` with `currentRefTime === 0`
      { a with records := setRec a.records name ({ record with currentRefTime := st }) }
    else
      let record2 := markTime { record with currentRefTime := st } rt (now - rt)
      let record3 :=
        if event.isNone && isSyncStore record.currentRefTime then
          { record2 with currentRefTime := RefStore.sync 0 }
        else record2
      let a1 := { a with records := setRec a.records name record3 }
      if a.enableLiveDebug then
        if a.inMemCycles ≤ record3.recentCycles.length then
          let record4 := { record3 with recentCycles := record3.recentCycles.tail }
          { a1 with records := setRec a1.records name record4 }
        else a1
      else
        purgeArena a1 name

/-- Source method `endStage(name, event?)`: `event : Option Int` is the
`timeStamp` of the supplied `PointerEvent` (`if (event)` tests the
object, which is always truthy when supplied, so `some 0` still takes
the event branch). -/
def endStage (a : Arena) (name : String) (event : Option Int) (now : Int) : Arena :=
  if a.skipRecording then a
  else
    match lookupRec a.records name with
    | none => a
    | some record => endStageHit a name event now record

/-- Source method `getStageArena(name)`: the raw object-property read, `none` when the
name was never registered. -/
def getStageArena (a : Arena) (name : String) : Option StagePerfData :=
  lookupRec a.records name

/-- The `reset-performance-data` listener:
`this.initializePerformanceData(this.stages, true)` (the `forEach`
iterates the list as it was when the call began). -/
def resetArena (a : Arena) : Except String Arena :=
  initPerformanceData a a.stages true

/-- The `init-performance-data` listener:
`this.skipRecording = e.detail.skipRecording`. -/
def setSkipRecording (a : Arena) (b : Bool) : Arena :=
  { a with skipRecording := b }

/-- The arena with the record stored under `name` replaced by `d`
(how every mutation of `this.records[name]` lands in the map). -/
def withRecord (a : Arena) (name : String) (d : StagePerfData) : Arena :=
  { a with records := setRec a.records name d }

/-- Observation helper: the stage's lifetime counter, `0` when the stage
is unregistered (no record). -/
def totalCyclesOf (a : Arena) (n : String) : Nat :=
  match getStageArena a n with
  | none => 0
  | some r => r.totalCycles

/-- Whether a given `endStage` call will record a cycle: the guard
passes, the resolved reference time exists and is non-zero. -/
def completesCycle (a : Arena) (name : String) (event : Option Int) : Bool :=
  if a.skipRecording then false
  else
    match lookupRec a.records name with
    | none => false
    | some record =>
      match refOf event record.currentRefTime with
      | none => false
      | some rt => if rt = 0 then false else true

/-- A sequence of `startStage` calls at the given clock times. -/
def runStarts (a : Arena) (name : String) (ts : List Int) : Arena :=
  ts.foldl (fun acc t => startStage acc name t) a

/-- A sequence of plain `endStage` calls (no external event) at the
given clock times. -/
def runEnds (a : Arena) (name : String) (ts : List Int) : Arena :=
  ts.foldl (fun acc t => endStage acc name none t) a

/-- A sequence of completed `startStage`/`endStage` pairs, each pair
given as `(start clock time, end clock time)`. -/
def runPairs (a : Arena) (name : String) (ps : List (Int × Int)) : Arena :=
  ps.foldl (fun acc p => endStage (startStage acc name p.1) name none p.2) a

/-- The suffix of `l` of length at most `m`: the `m` most recent entries
of a completion-ordered history. -/
def lastN (m : Nat) (l : List PerfCycle) : List PerfCycle :=
  l.drop (l.length - m)

/-- Extract the arena from a successful construction; the fallback (an
inert empty arena) is never reached in the concrete scenarios below,
which all assert `isOk` separately or construct from duplicate-free
stage lists. -/
def arenaOk (x : Except String Arena) : Arena :=
  match x with
  | Except.ok a => a
  | Except.error _ =>
    { stages := [], records := [], skipRecording := true, enableLiveDebug := false,
      inMemCycles := 0, hasOnPurge := false, purgeLog := [] }

/-! Section: Lemmas about the association-list primitives -/

theorem lookupRec_eq_none_iff (recs : List (String × StagePerfData)) (n : String) :
    lookupRec recs n = none ↔ ∀ p ∈ recs, p.1 ≠ n := by
  induction recs with
  | nil => simp [lookupRec]
  | cons p rest ih =>
    by_cases h : p.1 = n
    · simp [lookupRec, h]
    · simp [lookupRec, h, ih]

theorem lookupRec_mapSet_self (recs : List (String × StagePerfData))
    (n : String) (d : StagePerfData) (v : StagePerfData)
    (h : lookupRec recs n = some v) :
    lookupRec (recs.map (fun p => if p.1 = n then (n, d) else p)) n = some d := by
  induction recs generalizing v with
  | nil => simp [lookupRec] at h
  | cons p rest ih =>
    by_cases hp : p.1 = n
    · simp [lookupRec, hp]
    · simp only [lookupRec, hp, if_neg hp, if_false] at h
      simp only [List.map_cons, lookupRec, if_neg hp]
      exact ih v h

theorem lookupRec_mapSet_ne (recs : List (String × StagePerfData))
    (n : String) (d : StagePerfData) (m : String) (hnm : m ≠ n) :
    lookupRec (recs.map (fun p => if p.1 = n then (n, d) else p)) m =
      lookupRec recs m := by
  induction recs with
  | nil => simp [lookupRec]
  | cons p rest ih =>
    by_cases hp : p.1 = n
    · have hnm' : ¬ n = m := fun hc => hnm hc.symm
      have hpm : ¬ p.1 = m := fun hc => hnm' (hp ▸ hc)
      simp [lookupRec, hp, hnm', hpm, ih]
    · by_cases hpm : p.1 = m
      · simp [lookupRec, hp, hpm, hnm]
      · simp [lookupRec, hp, hpm, ih]

theorem lookupRec_appendOne_self (recs : List (String × StagePerfData))
    (n : String) (d : StagePerfData) (h : lookupRec recs n = none) :
    lookupRec (recs ++ [(n, d)]) n = some d := by
  induction recs with
  | nil => simp [lookupRec]
  | cons p rest ih =>
    by_cases hp : p.1 = n
    · simp [lookupRec, hp] at h
    · simp only [lookupRec, hp, if_neg hp, if_false] at h
      simp only [List.cons_append, lookupRec, if_neg hp]
      exact ih h

theorem lookupRec_appendOne_ne (recs : List (String × StagePerfData))
    (n : String) (d : StagePerfData) (m : String) (hnm : m ≠ n) :
    lookupRec (recs ++ [(n, d)]) m = lookupRec recs m := by
  induction recs with
  | nil =>
    have hn : ¬ n = m := fun hc => hnm hc.symm
    simp [lookupRec, hn]
  | cons p rest ih =>
    by_cases hpm : p.1 = m
    · simp [lookupRec, hpm]
    · simp [lookupRec, hpm, ih]

theorem lookupRec_setRec_self (recs : List (String × StagePerfData))
    (n : String) (d : StagePerfData) :
    lookupRec (setRec recs n d) n = some d := by
  unfold setRec
  cases hl : lookupRec recs n with
  | none => exact lookupRec_appendOne_self recs n d hl
  | some v => exact lookupRec_mapSet_self recs n d v hl

theorem lookupRec_setRec_ne (recs : List (String × StagePerfData))
    (n : String) (d : StagePerfData) (m : String) (hnm : m ≠ n) :
    lookupRec (setRec recs n d) m = lookupRec recs m := by
  unfold setRec
  cases hl : lookupRec recs n with
  | none => exact lookupRec_appendOne_ne recs n d m hnm
  | some v => exact lookupRec_mapSet_ne recs n d m hnm

theorem lookupRec_setRec_isSome (recs : List (String × StagePerfData))
    (n : String) (d : StagePerfData) (m : String)
    (h : (lookupRec recs m).isSome) :
    (lookupRec (setRec recs n d) m).isSome := by
  by_cases hm : m = n
  · subst hm; rw [lookupRec_setRec_self]; rfl
  · rw [lookupRec_setRec_ne recs n d m hm]; exact h

theorem mapSet_of_not_mem (recs : List (String × StagePerfData))
    (n : String) (d : StagePerfData) (h : ∀ p ∈ recs, p.1 ≠ n) :
    recs.map (fun p => if p.1 = n then (n, d) else p) = recs := by
  induction recs with
  | nil => simp
  | cons p rest ih =>
    have hp : p.1 ≠ n := h p (by simp)
    simp only [List.map_cons, if_neg hp]
    rw [ih (fun q hq => h q (by simp [hq]))]

theorem setRec_setRec (recs : List (String × StagePerfData))
    (n : String) (d d' : StagePerfData) :
    setRec (setRec recs n d) n d' = setRec recs n d' := by
  cases hl : lookupRec recs n with
  | some v =>
    have e1 : setRec recs n d = recs.map (fun p => if p.1 = n then (n, d) else p) := by
      unfold setRec; rw [hl]
    have e2 : setRec recs n d' = recs.map (fun p => if p.1 = n then (n, d') else p) := by
      unfold setRec; rw [hl]
    have h1 : lookupRec (setRec recs n d) n = some d := lookupRec_setRec_self recs n d
    have e3 : setRec (setRec recs n d) n d' =
        (setRec recs n d).map (fun p => if p.1 = n then (n, d') else p) := by
      conv_lhs => rw [setRec]
      rw [h1]
    rw [e3, e2, e1, List.map_map]
    apply List.map_congr_left
    intro p _
    by_cases hpn : p.1 = n <;> simp [hpn]
  | none =>
    have hall := (lookupRec_eq_none_iff recs n).mp hl
    have e1 : setRec recs n d = recs ++ [(n, d)] := by
      unfold setRec; rw [hl]
    have e2 : setRec recs n d' = recs ++ [(n, d')] := by
      unfold setRec; rw [hl]
    have h1 : lookupRec (setRec recs n d) n = some d := lookupRec_setRec_self recs n d
    have e3 : setRec (setRec recs n d) n d' =
        (setRec recs n d).map (fun p => if p.1 = n then (n, d') else p) := by
      conv_lhs => rw [setRec]
      rw [h1]
    rw [e3, e2, e1, List.map_append, mapSet_of_not_mem recs n d' hall]
    simp

/-! Section: Single-operation characterizations -/

theorem startStage_async_step (a : Arena) (name : String) (now : Int)
    (record : StagePerfData) (q : List Int)
    (hskip : a.skipRecording = false)
    (hrec : lookupRec a.records name = some record)
    (hq : record.currentRefTime = RefStore.async q) :
    startStage a name now =
      withRecord a name { record with currentRefTime := RefStore.async (q ++ [now]) } := by
  unfold startStage
  rw [hskip]
  simp only [hrec, hq, hskip, Bool.false_eq_true, if_false, withRecord]

theorem startStage_sync_step (a : Arena) (name : String) (now : Int)
    (record : StagePerfData) (v : Int)
    (hskip : a.skipRecording = false)
    (hrec : lookupRec a.records name = some record)
    (hv : record.currentRefTime = RefStore.sync v) :
    startStage a name now =
      withRecord a name { record with currentRefTime := RefStore.sync now } := by
  unfold startStage
  rw [hskip]
  simp only [hrec, hv, hskip, Bool.false_eq_true, if_false, withRecord]

theorem endStage_async_step (a : Arena) (name : String) (now : Int)
    (record : StagePerfData) (h : Int) (t : List Int)
    (hskip : a.skipRecording = false)
    (hrec : lookupRec a.records name = some record)
    (hq : record.currentRefTime = RefStore.async (h :: t))
    (hh : ¬ h = 0)
    (hlive : a.enableLiveDebug = true)
    (hcap : record.recentCycles.length + 1 < a.inMemCycles) :
    endStage a name none now =
      withRecord a name
        { currentRefTime := RefStore.async t,
          totalCycles := record.totalCycles + 1,
          recentCycles := record.recentCycles ++ [({ r := h, t := now - h } : PerfCycle)] } := by
  unfold endStage endStageHit
  rw [hskip]
  have hlen : ¬ (a.inMemCycles ≤ record.recentCycles.length + 1) := by omega
  simp [hrec, hq, hskip, storeAfterShift, refOf, hh, markTime, isSyncStore, hlive, hlen,
    withRecord]

theorem endStage_sync_live_step (a : Arena) (name : String) (now : Int)
    (record : StagePerfData) (v : Int)
    (hskip : a.skipRecording = false)
    (hrec : lookupRec a.records name = some record)
    (hv : record.currentRefTime = RefStore.sync v)
    (hvne : ¬ v = 0)
    (hlive : a.enableLiveDebug = true) :
    endStage a name none now =
      withRecord a name
        { currentRefTime := RefStore.sync 0,
          totalCycles := record.totalCycles + 1,
          recentCycles :=
            if a.inMemCycles ≤ record.recentCycles.length + 1 then
              (record.recentCycles ++ [({ r := v, t := now - v } : PerfCycle)]).tail
            else
              record.recentCycles ++ [({ r := v, t := now - v } : PerfCycle)] } := by
  unfold endStage endStageHit
  rw [hskip]
  by_cases hlen : a.inMemCycles ≤ record.recentCycles.length + 1
  · simp [hrec, hv, hskip, storeAfterShift, refOf, hvne, markTime, isSyncStore, hlive, hlen,
      setRec_setRec, withRecord]
  · simp [hrec, hv, hskip, storeAfterShift, refOf, hvne, markTime, isSyncStore, hlive, hlen,
      withRecord]


/-! Section: No-op paths -/

theorem startStage_skip_noop (a : Arena) (name : String) (now : Int)
    (hskip : a.skipRecording = true) : startStage a name now = a := by
  unfold startStage
  rw [hskip]
  simp

theorem endStage_skip_noop (a : Arena) (name : String) (event : Option Int) (now : Int)
    (hskip : a.skipRecording = true) : endStage a name event now = a := by
  unfold endStage
  rw [hskip]
  simp

theorem startStage_unregistered_noop (a : Arena) (name : String) (now : Int)
    (hrec : lookupRec a.records name = none) : startStage a name now = a := by
  unfold startStage
  cases hs : a.skipRecording <;> simp [hrec]

theorem endStage_unregistered_noop (a : Arena) (name : String) (event : Option Int) (now : Int)
    (hrec : lookupRec a.records name = none) : endStage a name event now = a := by
  unfold endStage
  cases hs : a.skipRecording <;> simp [hrec]

theorem endStage_noPending_noop (a : Arena) (name : String) (now : Int)
    (record : StagePerfData)
    (hskip : a.skipRecording = false)
    (hrec : lookupRec a.records name = some record)
    (hnp : record.currentRefTime = RefStore.sync 0 ∨ record.currentRefTime = RefStore.async []) :
    (∀ m, getStageArena (endStage a name none now) m = getStageArena a m) ∧
      (endStage a name none now).purgeLog = a.purgeLog := by
  obtain ⟨cur, tc, rc⟩ := record
  have hstep : endStage a name none now = withRecord a name ⟨cur, tc, rc⟩ := by
    unfold endStage endStageHit
    rw [hskip]
    rcases hnp with hnp | hnp <;>
      simp only at hnp <;> subst hnp <;>
      simp [hrec, hskip, storeAfterShift, refOf, withRecord]
  rw [hstep]
  constructor
  · intro m
    by_cases hm : m = name
    · subst hm
      unfold getStageArena withRecord
      rw [lookupRec_setRec_self, hrec]
    · unfold getStageArena withRecord
      simp only
      rw [lookupRec_setRec_ne a.records name _ m hm]
  · rfl

/-! Section: The purge path -/

theorem purgeArena_withRecord (a : Arena) (name : String) (record3 : StagePerfData) :
    purgeArena (withRecord a name record3) name =
      { a with
        records := setRec a.records name { record3 with recentCycles := [] },
        purgeLog := if a.hasOnPurge then a.purgeLog ++ [(name, record3)] else a.purgeLog } := by
  unfold purgeArena withRecord
  simp [lookupRec_setRec_self, setRec_setRec]

theorem endStage_eq_hit (a : Arena) (name : String) (event : Option Int) (now : Int)
    (record : StagePerfData)
    (hskip : a.skipRecording = false)
    (hrec : lookupRec a.records name = some record) :
    endStage a name event now = endStageHit a name event now record := by
  unfold endStage
  rw [hskip]
  simp [hrec]

theorem endStage_steady_step (a : Arena) (name : String) (event : Option Int)
    (now : Int) (record : StagePerfData) (rt : Int)
    (hskip : a.skipRecording = false)
    (hrec : lookupRec a.records name = some record)
    (hlive : a.enableLiveDebug = false)
    (href : refOf event record.currentRefTime = some rt)
    (hrt : ¬ rt = 0) :
    ∃ snap : StagePerfData,
      snap.totalCycles = record.totalCycles + 1 ∧
      snap.recentCycles = record.recentCycles ++ [({ r := rt, t := now - rt } : PerfCycle)] ∧
      endStage a name event now =
        { a with
          records := setRec a.records name { snap with recentCycles := [] },
          purgeLog := if a.hasOnPurge then a.purgeLog ++ [(name, snap)] else a.purgeLog } := by
  rw [endStage_eq_hit a name event now record hskip hrec]
  cases event with
  | some ts =>
    have hts : ts = rt := by
      simpa [refOf] using href
    subst hts
    refine ⟨markTime record ts (now - ts), by simp [markTime], by simp [markTime], ?_⟩
    have h1 : endStageHit a name (some ts) now record =
        purgeArena (withRecord a name (markTime record ts (now - ts))) name := by
      unfold endStageHit
      simp [refOf, hrt, storeAfterShift, isSyncStore, hlive, withRecord, markTime]
    rw [h1, purgeArena_withRecord]
  | none =>
    cases hcur : record.currentRefTime with
    | sync v =>
      have hv : v = rt := by
        simpa [refOf, hcur] using href
      subst hv
      refine ⟨{ markTime record v (now - v) with currentRefTime := RefStore.sync 0 },
        by simp [markTime], by simp [markTime], ?_⟩
      have h1 : endStageHit a name none now record =
          purgeArena (withRecord a name
            { markTime record v (now - v) with currentRefTime := RefStore.sync 0 }) name := by
        unfold endStageHit
        simp [refOf, hcur, hrt, storeAfterShift, isSyncStore, hlive, withRecord, markTime]
      rw [h1, purgeArena_withRecord]
    | async q =>
      cases q with
      | nil => simp [refOf, hcur] at href
      | cons h t =>
        have hv : h = rt := by
          simpa [refOf, hcur] using href
        subst hv
        refine ⟨{ markTime record h (now - h) with currentRefTime := RefStore.async t },
          by simp [markTime], by simp [markTime], ?_⟩
        have h1 : endStageHit a name none now record =
            purgeArena (withRecord a name
              { markTime record h (now - h) with currentRefTime := RefStore.async t }) name := by
          unfold endStageHit
          simp [refOf, hcur, hrt, storeAfterShift, isSyncStore, hlive, withRecord, markTime]
        rw [h1, purgeArena_withRecord]

/-! Section: Registration / re-initialization lemmas -/

theorem initPD_nil (a : Arena) (f : Bool) :
    initPerformanceData a [] f = Except.ok a := rfl

theorem initPD_cons (a : Arena) (s : Stage) (rest : List Stage) (f : Bool) :
    initPerformanceData a (s :: rest) f =
      if ((lookupRec a.records (normalizeStage s).name).isSome && !f) = true then
        Except.error ("Found duplicate performance stage " ++
          (normalizeStage s).name ++ ". Aborting...")
      else
        initPerformanceData
          { a with
            stages := a.stages ++ [Stage.ext (normalizeStage s)],
            records := setRec a.records (normalizeStage s).name
              (initRecord ((normalizeStage s).type.getD StageExecutionType.sync)) }
          rest f := by
  unfold initPerformanceData
  rw [List.foldlM_cons]
  by_cases hc : ((lookupRec a.records (normalizeStage s).name).isSome && !f) = true
  · rw [if_pos hc, if_pos hc]
    rfl
  · rw [if_neg hc, if_neg hc]
    rfl

theorem initPD_lookup_not_mem (stages : List Stage) :
    ∀ (a : Arena) (f : Bool) (a' : Arena) (n : String),
      initPerformanceData a stages f = Except.ok a' →
      (∀ s ∈ stages, (normalizeStage s).name ≠ n) →
      lookupRec a'.records n = lookupRec a.records n := by
  induction stages with
  | nil =>
    intro a f a' n h _
    rw [initPD_nil] at h
    cases h
    rfl
  | cons s rest ih =>
    intro a f a' n h hn
    rw [initPD_cons] at h
    by_cases hc : ((lookupRec a.records (normalizeStage s).name).isSome && !f) = true
    · rw [if_pos hc] at h
      exact absurd h (by simp)
    · rw [if_neg hc] at h
      have hrest := ih _ f a' n h (fun s' hs' => hn s' (by simp [hs']))
      rw [hrest]
      exact lookupRec_setRec_ne a.records (normalizeStage s).name _ n
        (fun hc' => hn s (by simp) hc'.symm)

theorem initPD_force_ok (stages : List Stage) :
    ∀ a : Arena, ∃ a', initPerformanceData a stages true = Except.ok a' := by
  induction stages with
  | nil => intro a; exact ⟨a, rfl⟩
  | cons s rest ih =>
    intro a
    rw [initPD_cons]
    simp only [Bool.not_true, Bool.and_false, if_false]
    exact ih _

theorem initPD_force_lookup_mem (stages : List Stage) :
    ∀ (a a' : Arena),
      initPerformanceData a stages true = Except.ok a' →
      ∀ s ∈ stages, ∃ k, lookupRec a'.records (normalizeStage s).name =
        some (initRecord k) := by
  induction stages with
  | nil => intro a a' _ s hs; exact absurd hs (by simp)
  | cons s0 rest ih =>
    intro a a' h s hs
    rw [initPD_cons] at h
    simp only [Bool.not_true, Bool.and_false, if_false] at h
    rcases List.mem_cons.mp hs with hs0 | hsr
    · subst hs0
      by_cases hmem : ∃ s' ∈ rest, (normalizeStage s').name = (normalizeStage s).name
      · obtain ⟨s', hs', heq⟩ := hmem
        obtain ⟨k, hk⟩ := ih _ a' h s' hs'
        exact ⟨k, heq ▸ hk⟩
      · push_neg at hmem
        have hnm := initPD_lookup_not_mem rest _ true a' (normalizeStage s).name h hmem
        refine ⟨((normalizeStage s).type.getD StageExecutionType.sync), ?_⟩
        rw [hnm]
        exact lookupRec_setRec_self a.records (normalizeStage s).name _
    · exact ih _ a' h s hsr

theorem initPD_dup_error (stages : List Stage) :
    ∀ a : Arena,
      ((∃ s ∈ stages, (lookupRec a.records (normalizeStage s).name).isSome = true) ∨
        ¬ List.Nodup (stages.map fun s => (normalizeStage s).name)) →
      ∀ a', initPerformanceData a stages false ≠ Except.ok a' := by
  induction stages with
  | nil =>
    intro a h a'
    rcases h with ⟨s, hs, _⟩ | h
    · exact absurd hs (by simp)
    · exact absurd h (by simp)
  | cons s0 rest ih =>
    intro a h a'
    rw [initPD_cons]
    simp only [Bool.not_false, Bool.and_true]
    by_cases hc : (lookupRec a.records (normalizeStage s0).name).isSome = true
    · rw [if_pos hc]
      simp
    · rw [if_neg hc]
      rcases h with ⟨s, hs, hsome⟩ | hnd
      · rcases List.mem_cons.mp hs with hs0 | hsr
        · exact absurd (hs0 ▸ hsome) hc
        · refine ih _ (Or.inl ⟨s, hsr, ?_⟩) a'
          exact lookupRec_setRec_isSome a.records (normalizeStage s0).name _
            (normalizeStage s).name hsome
      · rw [List.map_cons, List.nodup_cons] at hnd
        push_neg at hnd
        by_cases hin : (normalizeStage s0).name ∈ rest.map fun s => (normalizeStage s).name
        · obtain ⟨s', hs', heq⟩ := List.mem_map.mp hin
          refine ih _ (Or.inl ⟨s', hs', ?_⟩) a'
          rw [heq, lookupRec_setRec_self]
          rfl
        · exact ih _ (Or.inr (hnd hin)) a'

/-! Section: FIFO pairing for Async stages -/

theorem withRecord_skip (a : Arena) (name : String) (d : StagePerfData) :
    (withRecord a name d).skipRecording = a.skipRecording := rfl

theorem withRecord_live (a : Arena) (name : String) (d : StagePerfData) :
    (withRecord a name d).enableLiveDebug = a.enableLiveDebug := rfl

theorem withRecord_inMem (a : Arena) (name : String) (d : StagePerfData) :
    (withRecord a name d).inMemCycles = a.inMemCycles := rfl

theorem withRecord_lookup_self (a : Arena) (name : String) (d : StagePerfData) :
    lookupRec (withRecord a name d).records name = some d :=
  lookupRec_setRec_self a.records name d

theorem runStarts_async (name : String) (ss : List Int) :
    ∀ (a : Arena) (tc : Nat) (rc : List PerfCycle) (q : List Int),
      a.skipRecording = false →
      lookupRec a.records name = some ⟨RefStore.async q, tc, rc⟩ →
      (runStarts a name ss).skipRecording = false ∧
      (runStarts a name ss).enableLiveDebug = a.enableLiveDebug ∧
      (runStarts a name ss).inMemCycles = a.inMemCycles ∧
      lookupRec (runStarts a name ss).records name =
        some ⟨RefStore.async (q ++ ss), tc, rc⟩ := by
  induction ss with
  | nil =>
    intro a tc rc q hskip hrec
    refine ⟨hskip, rfl, rfl, ?_⟩
    simpa using hrec
  | cons t ts ih =>
    intro a tc rc q hskip hrec
    have hstep := startStage_async_step a name t ⟨RefStore.async q, tc, rc⟩ q hskip hrec rfl
    unfold runStarts
    rw [List.foldl_cons, hstep]
    have h2 := ih (withRecord a name ⟨RefStore.async (q ++ [t]), tc, rc⟩) tc rc (q ++ [t])
      (by rw [withRecord_skip]; exact hskip) (withRecord_lookup_self _ _ _)
    unfold runStarts at h2
    refine ⟨h2.1, h2.2.1, h2.2.2.1, ?_⟩
    rw [h2.2.2.2]
    simp

theorem runEnds_async_fifo (name : String) (es : List Int) :
    ∀ (a : Arena) (tc : Nat) (rc : List PerfCycle) (q : List Int),
      a.skipRecording = false →
      a.enableLiveDebug = true →
      lookupRec a.records name = some ⟨RefStore.async q, tc, rc⟩ →
      (∀ x ∈ q, x ≠ 0) →
      es.length ≤ q.length →
      rc.length + es.length < a.inMemCycles →
      lookupRec (runEnds a name es).records name =
        some ⟨RefStore.async (q.drop es.length), tc + es.length,
          rc ++ List.zipWith (fun x e => ({ r := x, t := e - x } : PerfCycle))
            (q.take es.length) es⟩ := by
  induction es with
  | nil =>
    intro a tc rc q _ _ hrec _ _ _
    simpa [runEnds] using hrec
  | cons e es ih =>
    intro a tc rc q hskip hlive hrec hnz hlen hcap
    cases q with
    | nil => simp at hlen
    | cons h t =>
      have hh : ¬ h = 0 := hnz h (by simp)
      have hstep := endStage_async_step a name e ⟨RefStore.async (h :: t), tc, rc⟩ h t
        hskip hrec rfl hh hlive (by simp at hcap ⊢; omega)
      unfold runEnds
      rw [List.foldl_cons, hstep]
      have h2 := ih (withRecord a name
          ⟨RefStore.async t, tc + 1, rc ++ [({ r := h, t := e - h } : PerfCycle)]⟩)
        (tc + 1) (rc ++ [({ r := h, t := e - h } : PerfCycle)]) t
        (by rw [withRecord_skip]; exact hskip)
        (by rw [withRecord_live]; exact hlive)
        (withRecord_lookup_self _ _ _)
        (fun x hx => hnz x (by simp [hx]))
        (by simp at hlen ⊢; omega)
        (by rw [withRecord_inMem]; simp at hcap ⊢; omega)
      unfold runEnds at h2
      rw [h2]
      simp [List.append_assoc]
      omega

/-! Section: Ring-buffer behaviour of the live-inspection history -/

theorem lastN_of_length_le (m : Nat) (l : List PerfCycle) (h : l.length ≤ m) :
    lastN m l = l := by
  unfold lastN
  have e : l.length - m = 0 := by omega
  rw [e]
  exact List.drop_zero l

theorem lastN_length_le (m : Nat) (l : List PerfCycle) : (lastN m l).length ≤ m := by
  unfold lastN
  rw [List.length_drop]
  omega

theorem lastN_snoc_step (C : Nat) (hC : 1 ≤ C) (s : List PerfCycle) (c : PerfCycle) :
    (if C ≤ (lastN (C - 1) s).length + 1 then (lastN (C - 1) s ++ [c]).tail
      else lastN (C - 1) s ++ [c]) = lastN (C - 1) (s ++ [c]) := by
  have hLlen : (lastN (C - 1) s).length = s.length - (s.length - (C - 1)) := by
    unfold lastN
    rw [List.length_drop]
  by_cases hbig : C - 1 ≤ s.length
  · have hcond : C ≤ (lastN (C - 1) s).length + 1 := by rw [hLlen]; omega
    rw [if_pos hcond]
    unfold lastN
    rw [List.length_append, List.length_singleton]
    by_cases hm : C - 1 = 0
    · have e1 : s.length - (C - 1) = s.length := by omega
      have e2 : s.length + 1 - (C - 1) = s.length + 1 := by omega
      rw [e1, e2, List.drop_length]
      rw [List.drop_eq_nil_of_le (by simp : (s ++ [c]).length ≤ s.length + 1)]
      rfl
    · have e1 : s.length + 1 - (C - 1) = (s.length - (C - 1)) + 1 := by omega
      rw [e1]
      rw [List.drop_append_of_le_length (by omega : s.length - (C - 1) + 1 ≤ s.length)]
      rw [← List.drop_one]
      rw [List.drop_append_of_le_length
        (by rw [List.length_drop]; omega : 1 ≤ (s.drop (s.length - (C - 1))).length)]
      rw [List.drop_drop]
  · have hcond : ¬ C ≤ (lastN (C - 1) s).length + 1 := by rw [hLlen]; omega
    rw [if_neg hcond]
    unfold lastN
    rw [List.length_append, List.length_singleton]
    have e1 : s.length - (C - 1) = 0 := by omega
    have e2 : s.length + 1 - (C - 1) = 0 := by omega
    rw [e1, e2, List.drop_zero, List.drop_zero]

theorem withRecord_withRecord (a : Arena) (name : String) (d d' : StagePerfData) :
    withRecord (withRecord a name d) name d' = withRecord a name d' := by
  unfold withRecord
  simp [setRec_setRec]

theorem runPairs_sync_ring (name : String) (ps : List (Int × Int)) :
    ∀ (a : Arena) (v0 : Int) (tc : Nat) (s : List PerfCycle),
      a.skipRecording = false →
      a.enableLiveDebug = true →
      1 ≤ a.inMemCycles →
      (∀ p ∈ ps, p.1 ≠ 0) →
      lookupRec a.records name = some ⟨RefStore.sync v0, tc, lastN (a.inMemCycles - 1) s⟩ →
      ∃ w : Int, lookupRec (runPairs a name ps).records name =
        some ⟨RefStore.sync w, tc + ps.length,
          lastN (a.inMemCycles - 1)
            (s ++ ps.map (fun p => ({ r := p.1, t := p.2 - p.1 } : PerfCycle)))⟩ := by
  induction ps with
  | nil =>
    intro a v0 tc s _ _ _ _ hrec
    exact ⟨v0, by simpa [runPairs] using hrec⟩
  | cons p ps ih =>
    intro a v0 tc s hskip hlive hC hnz hrec
    obtain ⟨sv, ev⟩ := p
    have hsv : ¬ sv = 0 := hnz (sv, ev) (by simp)
    have hstart : startStage a name sv =
        withRecord a name ⟨RefStore.sync sv, tc, lastN (a.inMemCycles - 1) s⟩ :=
      startStage_sync_step a name sv ⟨RefStore.sync v0, tc, lastN (a.inMemCycles - 1) s⟩
        v0 hskip hrec rfl
    have hend : endStage (withRecord a name
          ⟨RefStore.sync sv, tc, lastN (a.inMemCycles - 1) s⟩) name none ev =
        withRecord a name
          ⟨RefStore.sync 0, tc + 1,
            if a.inMemCycles ≤ (lastN (a.inMemCycles - 1) s).length + 1 then
              (lastN (a.inMemCycles - 1) s ++ [({ r := sv, t := ev - sv } : PerfCycle)]).tail
            else
              lastN (a.inMemCycles - 1) s ++ [({ r := sv, t := ev - sv } : PerfCycle)]⟩ := by
      have h0 := endStage_sync_live_step
        (withRecord a name ⟨RefStore.sync sv, tc, lastN (a.inMemCycles - 1) s⟩) name ev
        ⟨RefStore.sync sv, tc, lastN (a.inMemCycles - 1) s⟩ sv
        (by rw [withRecord_skip]; exact hskip)
        (withRecord_lookup_self _ _ _)
        rfl hsv
        (by rw [withRecord_live]; exact hlive)
      rw [h0, withRecord_withRecord]
      rfl
    rw [lastN_snoc_step a.inMemCycles hC s ({ r := sv, t := ev - sv } : PerfCycle)] at hend
    unfold runPairs
    rw [List.foldl_cons, hstart, hend]
    have h2 := ih (withRecord a name
        ⟨RefStore.sync 0, tc + 1,
          lastN (a.inMemCycles - 1) (s ++ [({ r := sv, t := ev - sv } : PerfCycle)])⟩)
      0 (tc + 1) (s ++ [({ r := sv, t := ev - sv } : PerfCycle)])
      (by rw [withRecord_skip]; exact hskip)
      (by rw [withRecord_live]; exact hlive)
      (by rw [withRecord_inMem]; exact hC)
      (fun q hq => hnz q (by simp [hq]))
      (withRecord_lookup_self _ _ _)
    unfold runPairs at h2
    obtain ⟨w, hw⟩ := h2
    refine ⟨w, ?_⟩
    rw [hw]
    have e1 : tc + 1 + ps.length = tc + (ps.length + 1) := by omega
    rw [e1]
    have e2 : (s ++ [({ r := sv, t := ev - sv } : PerfCycle)]) ++
        ps.map (fun p => ({ r := p.1, t := p.2 - p.1 } : PerfCycle)) =
        s ++ ((sv, ev) :: ps).map (fun p => ({ r := p.1, t := p.2 - p.1 } : PerfCycle)) := by
      simp
    rw [e2]
    simp
    rfl

/-! Section: Lifetime-counter accounting -/

theorem startStage_shape (a : Arena) (name : String) (now : Int) :
    startStage a name now = a ∨
    ∃ record r', lookupRec a.records name = some record ∧
      startStage a name now = withRecord a name r' ∧
      r'.totalCycles = record.totalCycles ∧ r'.recentCycles = record.recentCycles := by
  by_cases hsk : a.skipRecording = true
  · exact Or.inl (startStage_skip_noop a name now hsk)
  · have hsk' : a.skipRecording = false := by
      revert hsk; cases a.skipRecording <;> simp
    cases hrec : lookupRec a.records name with
    | none => exact Or.inl (startStage_unregistered_noop a name now hrec)
    | some record =>
      right
      cases hcur : record.currentRefTime with
      | sync v =>
        exact ⟨record, _, rfl, startStage_sync_step a name now record v hsk' hrec hcur,
          by simp, by simp⟩
      | async q =>
        exact ⟨record, _, rfl, startStage_async_step a name now record q hsk' hrec hcur,
          by simp, by simp⟩

theorem endStage_totalCycles_shape (a : Arena) (name : String) (event : Option Int)
    (now : Int) :
    (endStage a name event now = a ∧ completesCycle a name event = false) ∨
    ∃ record r',
      lookupRec a.records name = some record ∧
      (endStage a name event now).records = setRec a.records name r' ∧
      r'.totalCycles = record.totalCycles +
        (if completesCycle a name event = true then 1 else 0) := by
  by_cases hsk : a.skipRecording = true
  · exact Or.inl ⟨endStage_skip_noop a name event now hsk, by simp [completesCycle, hsk]⟩
  · have hsk' : a.skipRecording = false := by
      revert hsk; cases a.skipRecording <;> simp
    cases hrec : lookupRec a.records name with
    | none =>
      exact Or.inl ⟨endStage_unregistered_noop a name event now hrec,
        by simp [completesCycle, hsk', hrec]⟩
    | some record =>
      right
      have hcc : completesCycle a name event =
          (match refOf event record.currentRefTime with
            | none => false
            | some rt => if rt = 0 then false else true) := by
        unfold completesCycle
        rw [hsk', hrec]
        simp
      rw [endStage_eq_hit a name event now record hsk' hrec]
      cases href : refOf event record.currentRefTime with
      | none =>
        refine ⟨record,
          { record with currentRefTime := storeAfterShift event record.currentRefTime },
          rfl, ?_, ?_⟩
        · simp only [endStageHit, href]
        · rw [hcc, href]
          simp
      | some rt =>
        by_cases hrt : rt = 0
        · subst hrt
          refine ⟨record,
            { record with currentRefTime := storeAfterShift event record.currentRefTime },
            rfl, ?_, ?_⟩
          · simp only [endStageHit, href]
            simp
          · rw [hcc, href]
            simp
        · have hcc' : completesCycle a name event = true := by
            rw [hcc, href]
            simp [hrt]
          set record3 : StagePerfData :=
            (if (event.isNone && isSyncStore record.currentRefTime) = true then
              { markTime { record with
                  currentRefTime := storeAfterShift event record.currentRefTime }
                  rt (now - rt) with currentRefTime := RefStore.sync 0 }
            else
              markTime { record with
                currentRefTime := storeAfterShift event record.currentRefTime }
                rt (now - rt)) with hr3
          have hr3tc : record3.totalCycles = record.totalCycles + 1 := by
            rw [hr3]
            by_cases hb : (event.isNone && isSyncStore record.currentRefTime) = true <;>
              simp [hb, markTime]
          by_cases hlive : a.enableLiveDebug = true
          · by_cases hev : a.inMemCycles ≤ record3.recentCycles.length
            · refine ⟨record, { record3 with recentCycles := record3.recentCycles.tail },
                rfl, ?_, ?_⟩
              · simp only [endStageHit, href, if_neg hrt, hlive, if_true, ← hr3,
                  if_pos hev]
                simp [setRec_setRec]
              · simp [hr3tc, hcc']
            · refine ⟨record, record3, rfl, ?_, ?_⟩
              · simp only [endStageHit, href, if_neg hrt, hlive, if_true, ← hr3,
                  if_neg hev]
              · simp [hr3tc, hcc']
          · have hlive' : a.enableLiveDebug = false := by
              revert hlive; cases a.enableLiveDebug <;> simp
            refine ⟨record, { record3 with recentCycles := [] }, rfl, ?_, ?_⟩
            · simp only [endStageHit, href, if_neg hrt, hlive', Bool.false_eq_true,
                if_false, ← hr3]
              unfold purgeArena
              simp [lookupRec_setRec_self, setRec_setRec]
            · simp [hr3tc, hcc']

theorem totalCyclesOf_startStage (a : Arena) (name : String) (now : Int) (m : String) :
    totalCyclesOf (startStage a name now) m = totalCyclesOf a m := by
  rcases startStage_shape a name now with h | ⟨record, r', hrec, heq, htc, _⟩
  · rw [h]
  · rw [heq]
    unfold totalCyclesOf getStageArena withRecord
    by_cases hm : m = name
    · subst hm
      rw [lookupRec_setRec_self, hrec]
      simp [htc]
    · simp only
      rw [lookupRec_setRec_ne _ _ _ _ hm]

theorem totalCyclesOf_endStage_name (a : Arena) (name : String) (event : Option Int)
    (now : Int) :
    totalCyclesOf (endStage a name event now) name =
      totalCyclesOf a name + (if completesCycle a name event = true then 1 else 0) := by
  rcases endStage_totalCycles_shape a name event now with ⟨heq, hcc⟩ |
    ⟨record, r', hrec, hrecords, htc⟩
  · rw [heq, hcc]
    simp
  · unfold totalCyclesOf getStageArena
    rw [hrecords, lookupRec_setRec_self, hrec]
    simp [htc]

theorem totalCyclesOf_endStage_ne (a : Arena) (name : String) (event : Option Int)
    (now : Int) (m : String) (hm : m ≠ name) :
    totalCyclesOf (endStage a name event now) m = totalCyclesOf a m := by
  rcases endStage_totalCycles_shape a name event now with ⟨heq, _⟩ |
    ⟨record, r', hrec, hrecords, htc⟩
  · rw [heq]
  · unfold totalCyclesOf getStageArena
    rw [hrecords, lookupRec_setRec_ne _ _ _ _ hm]

theorem totalCyclesOf_purgeArena (a : Arena) (name m : String) :
    totalCyclesOf (purgeArena a name) m = totalCyclesOf a m := by
  unfold purgeArena
  cases hrec : lookupRec a.records name with
  | none => rfl
  | some record =>
    unfold totalCyclesOf getStageArena
    by_cases hm : m = name
    · subst hm
      simp only
      rw [lookupRec_setRec_self, hrec]
    · simp only
      rw [lookupRec_setRec_ne _ _ _ _ hm]

/-! Section: Claim theorems -/

/-- C1: the claim says a Sync stage started at clock time 0 and ended at
clock time 5 records the cycle `{refTime := 0, elapsed := 5}` and ends
with `totalCycles = 1`.  The code instead treats the stored reference
time `0` as "unset" (`if (!currentRefTime) return`), so this evaluation
shows the failing input: no cycle is recorded, `totalCycles` stays `0`,
and `recentCycles` stays empty (live-inspection mode, capacity 10, so a
recorded cycle would have been retained). -/
theorem C1_sync_start_at_zero_eval :
    (mkArena [Stage.str "render"] false (some 10) true false).isOk = true ∧
    getStageArena
      (endStage (startStage (arenaOk (mkArena [Stage.str "render"] false (some 10) true false))
        "render" 0) "render" none 5) "render" =
      some { currentRefTime := RefStore.sync 0, totalCycles := 0, recentCycles := [] } ∧
    (endStage (startStage (arenaOk (mkArena [Stage.str "render"] false (some 10) true false))
        "render" 0) "render" none 5).purgeLog = [] := by
  decide

/-- C2 counterexample: an Async stage with pending queue `[1]`, ended
with an external timestamp `4` at clock time `10`.  The claim predicts
the queue is dequeued (becoming `[]`) and the recorded cycle is
`(refTime 1, elapsed 4 - 1 = 3)`.  The code instead records
`(refTime 4, elapsed 10 - 4 = 6)` and leaves the queue untouched at
`[1]`, which differs from the predicted record in every component. -/
theorem C2_counterexample :
    getStageArena
      (endStage (startStage (arenaOk (mkArena [Stage.ext ⟨"s", some StageExecutionType.async⟩]
        false (some 10) true false)) "s" 1) "s" (some 4) 10) "s" =
      some { currentRefTime := RefStore.async [1], totalCycles := 1,
             recentCycles := [{ r := 4, t := 6 }] } ∧
    ({ currentRefTime := RefStore.async [1], totalCycles := 1,
       recentCycles := [{ r := 4, t := 6 }] } : StagePerfData) ≠
      { currentRefTime := RefStore.async [], totalCycles := 1,
        recentCycles := [{ r := 1, t := 3 }] } := by
  decide

/-- C2 amended: when an external timestamp `ts` is supplied, `endStage`
uses it as the *reference* time, not the closing time: the recorded
cycle is `(ts, now - ts)` with `now` from the clock, and the stage's
pending reference store (Sync slot or Async queue) is left untouched.
Stated in live-inspection mode with room in the buffer so the recorded
cycle is observable. -/
theorem C2_event_as_reference_time (a : Arena) (name : String) (ts now : Int)
    (record : StagePerfData)
    (hskip : a.skipRecording = false)
    (hrec : lookupRec a.records name = some record)
    (hts : ¬ ts = 0)
    (hlive : a.enableLiveDebug = true)
    (hcap : record.recentCycles.length + 1 < a.inMemCycles) :
    getStageArena (endStage a name (some ts) now) name =
      some { currentRefTime := record.currentRefTime,
             totalCycles := record.totalCycles + 1,
             recentCycles := record.recentCycles ++ [{ r := ts, t := now - ts }] } := by
  rw [getStageArena, endStage_eq_hit a name (some ts) now record hskip hrec]
  have hlen : ¬ (a.inMemCycles ≤ record.recentCycles.length + 1) := by omega
  simp only [endStageHit, refOf, storeAfterShift, markTime, Option.isNone_some,
    Bool.false_and, Bool.false_eq_true, if_false, if_neg hts, hlive, if_true]
  simp [hlen, lookupRec_setRec_self]

/-- Witness for C2's amended theorem at the counterexample's input. -/
theorem C2_event_as_reference_time_witness :
    getStageArena
      (endStage (startStage (arenaOk (mkArena [Stage.ext ⟨"s", some StageExecutionType.async⟩]
        false (some 10) true false)) "s" 1) "s" (some 4) 10) "s" =
      some { currentRefTime := RefStore.async [1], totalCycles := 0 + 1,
             recentCycles := [] ++ [{ r := 4, t := 10 - 4 }] } :=
  C2_event_as_reference_time
    (startStage (arenaOk (mkArena [Stage.ext ⟨"s", some StageExecutionType.async⟩]
      false (some 10) true false)) "s" 1) "s" 4 10
    ⟨RefStore.async [1], 0, []⟩ (by decide) (by decide) (by decide) (by decide) (by decide)

/-- C3 counterexample: `endStage` with an external timestamp `3` at
clock time `10` on a registered Async stage with *no* pending reference
time (steady-state mode, callback configured).  The claim says such a
call mutates nothing and fires no callback; the code records the cycle
`(3, 7)` anyway, increments `totalCycles` to 1 and invokes `onPurge`
once. -/
theorem C3_counterexample :
    getStageArena
      (endStage (arenaOk (mkArena [Stage.ext ⟨"s", some StageExecutionType.async⟩]
        false none false true)) "s" (some 3) 10) "s" =
      some { currentRefTime := RefStore.async [], totalCycles := 1, recentCycles := [] } ∧
    (endStage (arenaOk (mkArena [Stage.ext ⟨"s", some StageExecutionType.async⟩]
        false none false true)) "s" (some 3) 10).purgeLog =
      [("s", { currentRefTime := RefStore.async [], totalCycles := 1,
               recentCycles := [{ r := 3, t := 7 }] })] ∧
    (1 : Nat) ≠ 0 := by
  decide

/-- C3 amended: calls on an unregistered stage name or while recording
is globally disabled are exact no-ops (both `startStage` and `endStage`,
with or without an external timestamp); an `endStage` **without an
external timestamp** whose stage has no pending reference time (Sync
slot holding the unset marker 0, or empty Async queue) changes no
stage's record and fires no `onPurge` callback.  (With an external
timestamp the no-pending case does record a cycle: see
`C3_counterexample`.)  All embedded operations are total functions, so
no error is raised. -/
theorem C3_silent_noop (a : Arena) (name : String) (event : Option Int) (now : Int) :
    (a.skipRecording = true → startStage a name now = a ∧ endStage a name event now = a) ∧
    (getStageArena a name = none → startStage a name now = a ∧ endStage a name event now = a) ∧
    (∀ record, getStageArena a name = some record →
      record.currentRefTime = RefStore.sync 0 ∨ record.currentRefTime = RefStore.async [] →
      (∀ m, getStageArena (endStage a name none now) m = getStageArena a m) ∧
        (endStage a name none now).purgeLog = a.purgeLog) := by
  refine ⟨fun hsk => ⟨startStage_skip_noop a name now hsk, endStage_skip_noop a name event now hsk⟩,
    fun hrec => ⟨startStage_unregistered_noop a name now hrec,
      endStage_unregistered_noop a name event now hrec⟩,
    fun record hrec hnp => ?_⟩
  by_cases hsk : a.skipRecording = true
  · rw [endStage_skip_noop a name none now hsk]
    exact ⟨fun m => rfl, rfl⟩
  · have hsk' : a.skipRecording = false := by
      revert hsk; cases a.skipRecording <;> simp
    exact endStage_noPending_noop a name now record hsk' hrec hnp

/-- Witness for C3's amended theorem: a disabled-recording arena and an
end-without-start on a fresh Sync stage. -/
theorem C3_silent_noop_witness :
    (startStage (arenaOk (mkArena [Stage.str "s"] true none false false)) "s" 7 =
        arenaOk (mkArena [Stage.str "s"] true none false false) ∧
      endStage (arenaOk (mkArena [Stage.str "s"] true none false false)) "s" none 7 =
        arenaOk (mkArena [Stage.str "s"] true none false false)) ∧
    (∀ m, getStageArena
        (endStage (arenaOk (mkArena [Stage.str "s"] false none false true)) "s" none 9) m =
      getStageArena (arenaOk (mkArena [Stage.str "s"] false none false true)) m) ∧
      (endStage (arenaOk (mkArena [Stage.str "s"] false none false true)) "s" none 9).purgeLog =
        (arenaOk (mkArena [Stage.str "s"] false none false true)).purgeLog :=
  ⟨(C3_silent_noop (arenaOk (mkArena [Stage.str "s"] true none false false)) "s" none 7).1
      (by decide),
   (C3_silent_noop (arenaOk (mkArena [Stage.str "s"] false none false true)) "s" none 9).2.2
      ⟨RefStore.sync 0, 0, []⟩ (by decide) (Or.inl rfl)⟩

/-- C4: for an Async stage, any sequence of `startStage` calls (times
`ss`, appended to whatever queue `q0` was already pending) followed by
`es.length` plain `endStage` calls pairs each completed cycle with the
oldest pending reference time, in FIFO order: the recorded cycles are
exactly `zipWith (fun x e => (x, e - x))` of the first `es.length`
queue entries with the end times, and the remaining queue is the
corresponding suffix.  Start times are nonzero (a zero reference time is
the code's "unset" marker, see C1) and the live-inspection buffer is
large enough that no eviction hides a cycle. -/
theorem C4_async_fifo (a : Arena) (name : String) (tc : Nat) (rc : List PerfCycle)
    (q0 ss es : List Int)
    (hskip : a.skipRecording = false)
    (hlive : a.enableLiveDebug = true)
    (hrec : lookupRec a.records name = some ⟨RefStore.async q0, tc, rc⟩)
    (hnz : ∀ x ∈ q0 ++ ss, x ≠ 0)
    (hlen : es.length ≤ (q0 ++ ss).length)
    (hcap : rc.length + es.length < a.inMemCycles) :
    getStageArena (runEnds (runStarts a name ss) name es) name =
      some ⟨RefStore.async ((q0 ++ ss).drop es.length), tc + es.length,
        rc ++ List.zipWith (fun x e => ({ r := x, t := e - x } : PerfCycle))
          ((q0 ++ ss).take es.length) es⟩ := by
  obtain ⟨hskip1, hlive1, hmem1, hrec1⟩ := runStarts_async name ss a tc rc q0 hskip hrec
  rw [hlive] at hlive1
  exact runEnds_async_fifo name es (runStarts a name ss) tc rc (q0 ++ ss)
    hskip1 hlive1 hrec1 hnz hlen (by rw [hmem1]; exact hcap)

/-- Witness for C4 at the spec's own example: starts at times 1 and 2,
ends at times 10 and 12 pair FIFO into cycles (1, 9) and (2, 10). -/
theorem C4_async_fifo_witness :
    getStageArena
      (runEnds (runStarts (arenaOk (mkArena [Stage.ext ⟨"s", some StageExecutionType.async⟩]
        false (some 10) true false)) "s" [1, 2]) "s" [10, 12]) "s" =
      some ⟨RefStore.async (([] ++ [1, 2]).drop 2), 0 + 2,
        [] ++ List.zipWith (fun x e => ({ r := x, t := e - x } : PerfCycle))
          (([] ++ [1, 2]).take 2) [10, 12]⟩ :=
  C4_async_fifo (arenaOk (mkArena [Stage.ext ⟨"s", some StageExecutionType.async⟩]
      false (some 10) true false)) "s" 0 [] [] [1, 2] [10, 12]
    (by decide) (by decide) (by decide) (by decide) (by decide) (by decide)

/-- C5 counterexample: live-inspection mode with configured capacity
`C = 2`; two completed cycles (reference times 1 and 3, each of elapsed
1).  The claim predicts `recentCycles` holds the `C = 2` most recent
cycles, i.e. both of them; the code holds only one (eviction fires as
soon as the post-append length *reaches* `C`, so the buffer never holds
more than `C - 1` entries). -/
theorem C5_counterexample :
    getStageArena
      (endStage (startStage (endStage (startStage (arenaOk (mkArena [Stage.str "s"]
        false (some 2) true false)) "s" 1) "s" none 2) "s" 3) "s" none 4) "s" =
      some { currentRefTime := RefStore.sync 0, totalCycles := 2,
             recentCycles := [{ r := 3, t := 1 }] } ∧
    ([{ r := 3, t := 1 }] : List PerfCycle) ≠ [{ r := 1, t := 1 }, { r := 3, t := 1 }] := by
  decide

/-- C5 amended: in live-inspection mode with configured capacity
`C = inMemCycles ≥ 1`, after any sequence of completed start/end pairs
on a Sync stage (starting from an empty history), `recentCycles` holds
exactly the `C - 1` most recent cycles in completion order (`lastN
(C - 1)` of the completion-ordered cycle list) — eviction drops the
oldest entry and fires exactly when the post-append length reaches `C`
— and its length therefore never exceeds `C - 1` (a fortiori never
exceeds `C`). -/
theorem C5_ring_buffer (a : Arena) (name : String) (v0 : Int) (tc : Nat)
    (ps : List (Int × Int))
    (hskip : a.skipRecording = false)
    (hlive : a.enableLiveDebug = true)
    (hC : 1 ≤ a.inMemCycles)
    (hnz : ∀ p ∈ ps, p.1 ≠ 0)
    (hrec : lookupRec a.records name = some ⟨RefStore.sync v0, tc, []⟩) :
    ∃ w, getStageArena (runPairs a name ps) name =
      some ⟨RefStore.sync w, tc + ps.length,
        lastN (a.inMemCycles - 1)
          (ps.map (fun p => ({ r := p.1, t := p.2 - p.1 } : PerfCycle)))⟩ ∧
      (lastN (a.inMemCycles - 1)
        (ps.map (fun p => ({ r := p.1, t := p.2 - p.1 } : PerfCycle)))).length ≤
        a.inMemCycles - 1 := by
  have hnil : lastN (a.inMemCycles - 1) ([] : List PerfCycle) = [] := by
    unfold lastN
    simp
  obtain ⟨w, hw⟩ := runPairs_sync_ring name ps a v0 tc [] hskip hlive hC hnz
    (by rw [hnil]; exact hrec)
  rw [List.nil_append] at hw
  exact ⟨w, hw, lastN_length_le _ _⟩

/-- Witness for C5's amended theorem at the counterexample's input
(capacity 2, cycles (1,2) and (3,4)). -/
theorem C5_ring_buffer_witness :
    ∃ w, getStageArena (runPairs (arenaOk (mkArena [Stage.str "s"] false (some 2) true false))
        "s" [(1, 2), (3, 4)]) "s" =
      some ⟨RefStore.sync w, 0 + 2,
        lastN ((arenaOk (mkArena [Stage.str "s"] false (some 2) true false)).inMemCycles - 1)
          ([(1, 2), (3, 4)].map (fun p => ({ r := p.1, t := p.2 - p.1 } : PerfCycle)))⟩ ∧
      (lastN ((arenaOk (mkArena [Stage.str "s"] false (some 2) true false)).inMemCycles - 1)
        ([(1, 2), (3, 4)].map (fun p => ({ r := p.1, t := p.2 - p.1 } : PerfCycle)))).length ≤
        (arenaOk (mkArena [Stage.str "s"] false (some 2) true false)).inMemCycles - 1 :=
  C5_ring_buffer (arenaOk (mkArena [Stage.str "s"] false (some 2) true false)) "s" 0 0
    [(1, 2), (3, 4)] (by decide) (by decide) (by decide) (by decide) (by decide)

/-- C6: in steady-state mode (live inspection disabled) with a callback
configured, every `endStage` that completes a cycle appends exactly one
`(name, snapshot)` entry to the purge log — the snapshot is a deep
(value) copy holding the full history including the new cycle — and the
live record's `recentCycles` is empty when the call returns, while the
snapshot still holds the cycles: the two are independent values, so
mutating one cannot affect the other. -/
theorem C6_steady_purge (a : Arena) (name : String) (event : Option Int) (now : Int)
    (record : StagePerfData) (rt : Int)
    (hskip : a.skipRecording = false)
    (hrec : lookupRec a.records name = some record)
    (hlive : a.enableLiveDebug = false)
    (hpurge : a.hasOnPurge = true)
    (href : refOf event record.currentRefTime = some rt)
    (hrt : ¬ rt = 0) :
    ∃ snap,
      (endStage a name event now).purgeLog = a.purgeLog ++ [(name, snap)] ∧
      snap.totalCycles = record.totalCycles + 1 ∧
      snap.recentCycles = record.recentCycles ++ [{ r := rt, t := now - rt }] ∧
      getStageArena (endStage a name event now) name = some { snap with recentCycles := [] } := by
  obtain ⟨snap, htc, hrc, heq⟩ :=
    endStage_steady_step a name event now record rt hskip hrec hlive href hrt
  refine ⟨snap, ?_, htc, hrc, ?_⟩
  · rw [heq]
    simp [hpurge]
  · rw [heq]
    unfold getStageArena
    simp [lookupRec_setRec_self]

/-- Witness for C6 at the spec's end-to-end scenario: Sync stage,
steady mode, start at 1, end at 5. -/
theorem C6_steady_purge_witness :
    ∃ snap,
      (endStage (startStage (arenaOk (mkArena [Stage.str "s"] false none false true)) "s" 1)
          "s" none 5).purgeLog =
        (startStage (arenaOk (mkArena [Stage.str "s"] false none false true)) "s" 1).purgeLog ++
          [("s", snap)] ∧
      snap.totalCycles = 0 + 1 ∧
      snap.recentCycles = [] ++ [{ r := 1, t := 5 - 1 }] ∧
      getStageArena (endStage (startStage (arenaOk (mkArena [Stage.str "s"] false none false true))
          "s" 1) "s" none 5) "s" = some { snap with recentCycles := [] } :=
  C6_steady_purge (startStage (arenaOk (mkArena [Stage.str "s"] false none false true)) "s" 1)
    "s" none 5 ⟨RefStore.sync 1, 0, []⟩ 1
    (by decide) (by decide) (by decide) (by decide) (by decide) (by decide)

/-- C7: the lifetime counter `totalCycles` (a) is untouched by
`startStage`, (b) grows by exactly 1 on an `endStage` that completes a
cycle and is otherwise unchanged (in particular the purge/eviction that
follows recording never changes it, and `purgeArena` alone never
does), so it is monotone non-decreasing across all runtime operations
and equals the number of completed cycles since the last reset; (c)
`setSkipRecording` never changes it; (d) the force re-initialization
path (`resetArena`) always succeeds and rebuilds every registered
stage's counter to 0 — the only operation that lowers it. -/
theorem C7_lifetime_counter :
    (∀ (a : Arena) (name : String) (now : Int) (m : String),
      totalCyclesOf (startStage a name now) m = totalCyclesOf a m) ∧
    (∀ (a : Arena) (name : String) (event : Option Int) (now : Int),
      totalCyclesOf (endStage a name event now) name =
        totalCyclesOf a name + (if completesCycle a name event = true then 1 else 0)) ∧
    (∀ (a : Arena) (name : String) (event : Option Int) (now : Int) (m : String),
      m ≠ name → totalCyclesOf (endStage a name event now) m = totalCyclesOf a m) ∧
    (∀ (a : Arena) (name : String) (event : Option Int) (now : Int) (m : String),
      totalCyclesOf a m ≤ totalCyclesOf (endStage a name event now) m) ∧
    (∀ (a : Arena) (name m : String),
      totalCyclesOf (purgeArena a name) m = totalCyclesOf a m) ∧
    (∀ (a : Arena) (b : Bool) (m : String),
      totalCyclesOf (setSkipRecording a b) m = totalCyclesOf a m) ∧
    (∀ a : Arena, ∃ a', resetArena a = Except.ok a') ∧
    (∀ (a a' : Arena), resetArena a = Except.ok a' →
      ∀ s ∈ a.stages, totalCyclesOf a' (normalizeStage s).name = 0) := by
  refine ⟨totalCyclesOf_startStage, totalCyclesOf_endStage_name,
    fun a name event now m hm => totalCyclesOf_endStage_ne a name event now m hm,
    ?_, totalCyclesOf_purgeArena, fun a b m => rfl,
    fun a => initPD_force_ok a.stages a, ?_⟩
  · intro a name event now m
    by_cases hm : m = name
    · subst hm
      rw [totalCyclesOf_endStage_name]
      omega
    · rw [totalCyclesOf_endStage_ne a name event now m hm]
  · intro a a' h s hs
    obtain ⟨k, hk⟩ := initPD_force_lookup_mem a.stages a a' h s hs
    unfold totalCyclesOf getStageArena
    rw [hk]
    cases k <;> rfl

/-- Witness for C7: one application with the `m ≠ name` hypothesis and
one with the reset hypothesis, at concrete inputs. -/
theorem C7_lifetime_counter_witness :
    totalCyclesOf (endStage (arenaOk (mkArena [Stage.str "s"] false none false true))
        "s" none 5) "t" =
      totalCyclesOf (arenaOk (mkArena [Stage.str "s"] false none false true)) "t" ∧
    totalCyclesOf (arenaOk (resetArena (arenaOk (mkArena [Stage.str "s"] false none false true))))
      (normalizeStage (Stage.ext ⟨"s", some StageExecutionType.sync⟩)).name = 0 :=
  ⟨C7_lifetime_counter.2.2.1 (arenaOk (mkArena [Stage.str "s"] false none false true))
      "s" none 5 "t" (by decide),
   C7_lifetime_counter.2.2.2.2.2.2.2
      (arenaOk (mkArena [Stage.str "s"] false none false true))
      (arenaOk (resetArena (arenaOk (mkArena [Stage.str "s"] false none false true))))
      (by rfl) (Stage.ext ⟨"s", some StageExecutionType.sync⟩) (by decide)⟩

/-- C8 counterexample: arena with stage "a", one completed cycle
(`totalCycles = 1`), then force re-initialization with the list
`["b"]`.  The claim says all prior state is discarded; the code keeps
the record of stage "a" (with its lifetime count) because
`initializePerformanceData` never clears `this.records` — it only
overwrites the entries named in the given list. -/
theorem C8_counterexample :
    getStageArena (arenaOk (initPerformanceData
      (endStage (startStage (arenaOk (mkArena [Stage.str "a"] false none false false))
        "a" 1) "a" none 5) [Stage.str "b"] true)) "a" =
      some { currentRefTime := RefStore.sync 0, totalCycles := 1, recentCycles := [] } ∧
    (1 : Nat) ≠ 0 := by
  decide

/-- C8 amended: registering stages over a name that is already
registered (or a list that repeats a name) without the force flag
fails with an error; with the force flag registration always succeeds
and, for each stage in the given list, that stage's record is rebuilt
fresh (`initRecord`: zero counter, empty history, no pending
references) — but records of previously registered names absent from
the list are retained unchanged, not discarded. -/
theorem C8_force_reinit (a : Arena) (stages : List Stage) :
    (((∃ s ∈ stages, (lookupRec a.records (normalizeStage s).name).isSome = true) ∨
        ¬ List.Nodup (stages.map fun s => (normalizeStage s).name)) →
      ∀ a', initPerformanceData a stages false ≠ Except.ok a') ∧
    (∃ a', initPerformanceData a stages true = Except.ok a') ∧
    (∀ a', initPerformanceData a stages true = Except.ok a' →
      (∀ s ∈ stages, ∃ k, getStageArena a' (normalizeStage s).name = some (initRecord k)) ∧
      (∀ n, (∀ s ∈ stages, (normalizeStage s).name ≠ n) →
        getStageArena a' n = getStageArena a n)) := by
  refine ⟨initPD_dup_error stages a, initPD_force_ok stages a, fun a' h => ⟨?_, ?_⟩⟩
  · exact initPD_force_lookup_mem stages a a' h
  · intro n hn
    exact initPD_lookup_not_mem stages a true a' n h hn

/-- Witness for C8: at concrete inputs, a duplicate registration
without force is rejected, and force re-init with `["b"]` retains the
record of the unlisted stage "a". -/
theorem C8_force_reinit_witness :
    initPerformanceData (arenaOk (mkArena [Stage.str "a"] false none false false))
        [Stage.str "a"] false ≠
      Except.ok (arenaOk (mkArena [Stage.str "a"] false none false false)) ∧
    getStageArena (arenaOk (initPerformanceData
        (endStage (startStage (arenaOk (mkArena [Stage.str "a"] false none false false))
          "a" 1) "a" none 5) [Stage.str "b"] true)) "a" =
      getStageArena (endStage (startStage (arenaOk (mkArena [Stage.str "a"] false none false false))
        "a" 1) "a" none 5) "a" :=
  ⟨(C8_force_reinit (arenaOk (mkArena [Stage.str "a"] false none false false))
      [Stage.str "a"]).1
      (Or.inl ⟨Stage.str "a", by decide, by decide⟩)
      (arenaOk (mkArena [Stage.str "a"] false none false false)),
   ((C8_force_reinit
      (endStage (startStage (arenaOk (mkArena [Stage.str "a"] false none false false))
        "a" 1) "a" none 5) [Stage.str "b"]).2.2
      (arenaOk (initPerformanceData
        (endStage (startStage (arenaOk (mkArena [Stage.str "a"] false none false false))
          "a" 1) "a" none 5) [Stage.str "b"] true))
      (by rfl)).2 "a" (by decide)⟩

/-- C9: `getStageArena` on a name that was never registered returns
`none` (the raw `undefined` of the missing object property).  The
function is a pure read of the arena value — it takes the arena and
returns an `Option` without producing a new arena — so it can neither
create a record nor mutate any state, and it is total, so it raises no
error. -/
theorem C9_unregistered_none (stages : List Stage) (skip : Bool) (cap : Option Nat)
    (live purge : Bool) (a : Arena) (name : String)
    (hmk : mkArena stages skip cap live purge = Except.ok a)
    (hn : ∀ s ∈ stages, (normalizeStage s).name ≠ name) :
    getStageArena a name = none := by
  unfold mkArena at hmk
  have h := initPD_lookup_not_mem stages _ false a name hmk hn
  unfold getStageArena
  rw [h]
  rfl

/-- Witness for C9 at a concrete arena and name. -/
theorem C9_unregistered_none_witness :
    getStageArena (arenaOk (mkArena [Stage.str "s"] false none false true)) "nope" = none :=
  C9_unregistered_none [Stage.str "s"] false none false true
    (arenaOk (mkArena [Stage.str "s"] false none false true)) "nope"
    (by rfl) (by decide)

/-- C10: in steady-state mode with no `onPurge` callback configured, an
`endStage` that completes a cycle still increments the lifetime counter
and clears `recentCycles` to empty, while the purge log stays unchanged
(the optional-chaining call `onPurgeCallback?.()` is a no-op): the
cycle's data is discarded silently.  The embedded operation is a total
function, so no error is raised. -/
theorem C10_no_callback (a : Arena) (name : String) (event : Option Int) (now : Int)
    (record : StagePerfData) (rt : Int)
    (hskip : a.skipRecording = false)
    (hrec : lookupRec a.records name = some record)
    (hlive : a.enableLiveDebug = false)
    (hpurge : a.hasOnPurge = false)
    (href : refOf event record.currentRefTime = some rt)
    (hrt : ¬ rt = 0) :
    (endStage a name event now).purgeLog = a.purgeLog ∧
    ∃ r', getStageArena (endStage a name event now) name = some r' ∧
      r'.totalCycles = record.totalCycles + 1 ∧
      r'.recentCycles = [] := by
  obtain ⟨snap, htc, _, heq⟩ :=
    endStage_steady_step a name event now record rt hskip hrec hlive href hrt
  constructor
  · rw [heq]
    simp [hpurge]
  · refine ⟨{ snap with recentCycles := [] }, ?_, by simp [htc], rfl⟩
    rw [heq]
    unfold getStageArena
    simp [lookupRec_setRec_self]

/-- Witness for C10: Sync stage, steady mode, no callback, start at 1,
end at 5. -/
theorem C10_no_callback_witness :
    (endStage (startStage (arenaOk (mkArena [Stage.str "s"] false none false false)) "s" 1)
        "s" none 5).purgeLog =
      (startStage (arenaOk (mkArena [Stage.str "s"] false none false false)) "s" 1).purgeLog ∧
    ∃ r', getStageArena (endStage (startStage (arenaOk (mkArena [Stage.str "s"]
        false none false false)) "s" 1) "s" none 5) "s" = some r' ∧
      r'.totalCycles = 0 + 1 ∧
      r'.recentCycles = [] :=
  C10_no_callback (startStage (arenaOk (mkArena [Stage.str "s"] false none false false)) "s" 1)
    "s" none 5 ⟨RefStore.sync 1, 0, []⟩ 1
    (by decide) (by decide) (by decide) (by decide) (by decide) (by decide)
